import Mathlib

/-!
Verification of the Container Orchestration & Admission-Control Core of `v2.py`
(a multi-tenant VPS manager driving the `incus` container runtime).

The Python source is shallowly embedded: every stateful operation becomes a pure
function from its inputs (the in-memory record stores plus oracle parameters for
the outcomes of external runtime calls) to its outputs.  Python machine-level
details are modelled explicitly:

* `pyStrip`, `pyLower`, `pyIntOpt`, `pyStrNat`, `pyStrInt` model `str.strip()`,
  `str.lower()`, `int(str)` and `str(n)` (decimal rendering) over `Char` lists,
  so every definition evaluates inside the kernel;
* dictionaries (`user_data`, `vps_data`, `admin_data`) are association lists in
  insertion order, with Python assignment/`del` semantics (`setEntry`,
  `eraseUser`);
* external process invocations (`incus ...`) are parameters: each operation
  receives the outcome the operating system would have produced.
-/

/-! ### Python string primitives -/

/-- ASCII whitespace as recognised by Python `str.strip()` (the cases relevant
to the captured process output). -/
def isPySpace (c : Char) : Bool := c = ' ' ∨ c = '\t' ∨ c = '\n' ∨ c = '\r'

/-- Model of Python `str.strip()`: drop leading and trailing whitespace. -/
def pyStrip (s : String) : String :=
  String.mk (((s.data.dropWhile isPySpace).reverse.dropWhile isPySpace).reverse)

/-- Model of Python `str.lower()` restricted to ASCII. -/
def pyLower (s : String) : String := String.mk (s.data.map Char.toLower)

/-- Decimal digits of a natural number, most significant first.  The first
argument is structural fuel; `fuel > n` guarantees full rendering. -/
def natToDecAux : Nat → Nat → List Char
  | 0, _ => []
  | fuel+1, n =>
    if n < 10 then [Nat.digitChar n]
    else natToDecAux fuel (n / 10) ++ [Nat.digitChar (n % 10)]

/-- Decimal rendering of a natural number (the digit list of Python `str(n)`). -/
def natToDec (n : Nat) : List Char := natToDecAux (n + 1) n

/-- Model of Python `str(n)` for a non-negative integer. -/
def pyStrNat (n : Nat) : String := String.mk (natToDec n)

/-- Model of Python `str(i)` for an integer. -/
def pyStrInt (i : Int) : String :=
  if i < 0 then "-" ++ pyStrNat i.natAbs else pyStrNat i.natAbs

/-- Numeric value of a decimal digit character. -/
def decDigitVal (c : Char) : Nat := c.toNat - 48

/-- Value of a most-significant-first digit list. -/
def decVal (l : List Char) : Nat := l.foldl (fun a c => 10 * a + decDigitVal c) 0

/-- Is `c` a decimal digit? -/
def isDigitChar (c : Char) : Bool := '0' ≤ c ∧ c ≤ '9'

/-- Parse a non-empty all-digit character list. -/
def parseNatChars (l : List Char) : Option Nat :=
  if l = [] then none
  else if l.all isDigitChar then some (decVal l) else none

/-- Model of Python `int(s)`: strip whitespace, allow one sign, require digits,
otherwise `ValueError` (`none`). -/
def pyIntOpt (s : String) : Option Int :=
  match (pyStrip s).data with
  | '-' :: rest => (parseNatChars rest).map (fun n => -(n : Int))
  | '+' :: rest => (parseNatChars rest).map (fun n => (n : Int))
  | l => (parseNatChars l).map (fun n => (n : Int))

/-! ### Data model: VPS records and the tenant inventory (`vps_data`) -/

/-- One VPS record, the dict built by `slash_create` / `slash_buywc` in
`v2.py` (`container_name`, `ram`, `cpu`, `storage`, `status`, `created_at`,
`ipv4`, `ipv6`, `shared_with`, plus optional `plan` / `processor`). -/
structure VPSRecord where
  container_name : String
  ram : String
  cpu : String
  storage : String
  status : String
  created_at : String
  ipv4 : String
  ipv6 : String
  shared_with : List String
  plan : Option String := none
  processor : Option String := none
deriving DecidableEq

/-- Placeholder record used only as the (never-read) default of `List.getD`. -/
def defaultRecord : VPSRecord :=
  { container_name := "", ram := "", cpu := "", storage := "", status := "",
    created_at := "", ipv4 := "", ipv6 := "", shared_with := [] }

instance : Inhabited VPSRecord := ⟨defaultRecord⟩

/-- The `vps_data` store: tenant id (Python `str(user.id)`) to list of records,
in Python dict insertion order. -/
abbrev Inventory := List (String × List VPSRecord)

/-- Python dict lookup `m[key]` / `key in m` over an association list. -/
def lookupStr {α : Type} : List (String × α) → String → Option α
  | [], _ => none
  | (k, v) :: rest, key => if k = key then some v else lookupStr rest key

/-- The tenant's record list `vps_data.get(uid, [])`, empty when absent. -/
def getList (inv : Inventory) (uid : String) : List VPSRecord :=
  match lookupStr inv uid with
  | some l => l
  | none => []

/-- Replace the value of every entry keyed `key` (Python dicts hold it once). -/
def replaceEntry {α : Type} : List (String × α) → String → α → List (String × α)
  | [], _, _ => []
  | (k, v) :: rest, key, w =>
    if k = key then (key, w) :: replaceEntry rest key w
    else (k, v) :: replaceEntry rest key w

/-- Python dict assignment `m[key] = w`: update in place if the key exists,
otherwise append at the end (insertion order). -/
def setEntry {α : Type} (m : List (String × α)) (key : String) (w : α) :
    List (String × α) :=
  if (lookupStr m key).isSome then replaceEntry m key w else m ++ [(key, w)]

/-- Python `del m[uid]`. -/
def eraseUser : Inventory → String → Inventory
  | [], _ => []
  | (k, v) :: rest, uid =>
    if k = uid then eraseUser rest uid else (k, v) :: eraseUser rest uid

/-- Container id derivation of `slash_create` / `slash_buywc`:
`f"vps-{user_id}-{vps_count}"`. -/
def containerName (uid : String) (count : Nat) : String :=
  "vps-" ++ uid ++ "-" ++ pyStrNat count

/-- The `container_name` fields of a record list. -/
def recordNames (l : List VPSRecord) : List String :=
  l.map (fun r => r.container_name)

/-- Every `container_name` in the whole inventory, across all tenants. -/
def inventoryNames (inv : Inventory) : List String :=
  (inv.map (fun p => recordNames p.2)).flatten

/-- No two records anywhere in the inventory share a `container_name`. -/
abbrev NodupNames (inv : Inventory) : Prop := (inventoryNames inv).Nodup

/-! ### Process Runner: `execute_incus` (v2.py lines 138-156) -/

/-- Outcome of one external process: completion with exit code and captured
streams, or expiry of the `asyncio.wait_for` timeout. -/
inductive ProcResult where
  | completed (returncode : Int) (stdout stderr : String)
  | timedOut
deriving DecidableEq

/-- Model of `execute_incus(command, timeout)` given the process outcome `res`.
`Except.error` is the raised exception message; `Except.ok (some s)` is a
non-empty trimmed stdout and `Except.ok none` the `return True` sentinel used
when stdout is empty. -/
def execute_incus (command : String) (timeout : Nat) (res : ProcResult) :
    Except String (Option String) :=
  match res with
  | .timedOut =>
    .error ("Command timed out after " ++ pyStrNat timeout ++
      " seconds - container may be unresponsive. Try manual stop or increase timeout.")
  | .completed code so se =>
    let stdout_str := pyStrip so
    let stderr_str := pyStrip se
    if code ≠ 0 then
      .error ((if stderr_str = "" then "Unknown error (empty stderr)" else stderr_str) ++
        ". Command: " ++ command ++ ". STDOUT: " ++ stdout_str)
    else
      .ok (if stdout_str = "" then none else some stdout_str)

/-! ### Name resolution: the `execute_lxc` calls of `ManageView` -/

/-- Every module-level name bound in `v2.py` (functions, classes, globals).
`execute_lxc` is not among them: the file defines only `execute_incus`. -/
def moduleGlobals : List String :=
  ["logger", "intents", "bot", "to", "MAIN_ADMIN_ID", "VPS_USER_ROLE_ID",
   "CPU_THRESHOLD", "CHECK_INTERVAL", "cpu_monitor_active", "HOST_IPV4",
   "HOST_IPV6_LINKLOCAL", "load_data", "load_vps_data", "load_admin_data",
   "user_data", "vps_data", "admin_data", "save_data", "is_admin",
   "is_main_admin", "create_embed", "create_success_embed", "create_error_embed",
   "create_info_embed", "create_warning_embed", "execute_incus",
   "get_container_ips", "set_static_ip", "get_or_create_vps_role",
   "get_cpu_usage", "cpu_monitor", "cpu_thread", "on_ready",
   "on_app_command_error", "on_command_error", "slash_create", "ManageView",
   "manage_vps", "slash_list_all", "slash_manage_shared", "slash_share_user",
   "slash_revoke_share", "slash_buywc", "slash_buyc", "slash_delete_vps",
   "slash_plans", "slash_admin_credits", "slash_admin_remove_credits",
   "slash_admin_add", "slash_admin_remove", "slash_admin_list", "slash_credits",
   "slash_user_info", "slash_server_stats", "slash_vps_info",
   "slash_restart_vps", "slash_backup_vps", "slash_restore_vps",
   "slash_list_snapshots", "slash_execute", "slash_stop_all_vps",
   "slash_cpu_monitor", "slash_set_ip", "slash_help", "legacy_create"]

/-- Does a global name resolve at call time? -/
def nameDefined (n : String) : Bool := moduleGlobals.contains n

/-- Python runtime errors relevant here. -/
inductive PyError where
  | nameError (n : String)
  | execError (msg : String)
deriving DecidableEq

/-- Evaluating `await name(...)`: looking up an unbound global raises
`NameError` before any runtime action; a bound helper then succeeds or raises
according to the oracle `ok`. -/
def callGlobal (n : String) (ok : Bool) (msg : String) : Except PyError Unit :=
  if nameDefined n then
    if ok then .ok () else .error (.execError msg)
  else .error (.nameError n)

/-- Result of one `ManageView` action: the record afterwards, whether
`save_data()` ran, and whether the `except` branch was taken. -/
structure ActionResult where
  record : VPSRecord
  saved : Bool
  errorBranch : Bool
deriving DecidableEq

/-- Model of `ManageView.action_callback` for `action == 'start'` (v2.py lines 495-504):
`await execute_lxc(f"incus start {container_name}")`, then on success set
`status = "running"` and persist; any exception lands in the `except` branch
with no mutation. -/
def startCallback (vps : VPSRecord) (runOk : Bool) : ActionResult :=
  match callGlobal "execute_lxc" runOk "start failed" with
  | .ok _ => { record := { vps with status := "running" }, saved := true, errorBranch := false }
  | .error _ => { record := vps, saved := false, errorBranch := true }

/-- Model of `ManageView.action_callback` for `action == 'stop'` (v2.py lines 506-515). -/
def stopCallback (vps : VPSRecord) (runOk : Bool) : ActionResult :=
  match callGlobal "execute_lxc" runOk "stop failed" with
  | .ok _ => { record := { vps with status := "stopped" }, saved := true, errorBranch := false }
  | .error _ => { record := vps, saved := false, errorBranch := true }

/-- Model of `ConfirmView.confirm` (v2.py lines 462-487): `execute_lxc` delete, then
`execute_lxc` relaunch, then set `status`/`created_at` and persist; any
exception lands in the `except` branch with no record mutation. -/
def reinstallConfirm (vps : VPSRecord) (delOk relaunchOk : Bool) (now : String) :
    ActionResult :=
  match callGlobal "execute_lxc" delOk "delete failed" with
  | .error _ => { record := vps, saved := false, errorBranch := true }
  | .ok _ =>
    match callGlobal "execute_lxc" relaunchOk "launch failed" with
    | .error _ => { record := vps, saved := false, errorBranch := true }
    | .ok _ =>
      { record := { vps with status := "running", created_at := now },
        saved := true, errorBranch := false }

/-! ### Lifecycle Manager: `slash_create` (v2.py lines 289-342) -/

/-- Oracle parameters for one `slash_create` invocation: the outcome of the
`incus launch` call, the wall clock, the dynamically assigned addresses, the
optional static-address request with its outcome, and the re-queried
addresses after a successful static assignment. -/
structure CreateEnv where
  launchOk : Bool
  now : String
  dynIpv4 : String
  dynIpv6 : String
  reqIpv4 : Option String := none
  reqIpv6 : Option String := none
  staticOk : Bool := false
  staticIpv4 : String := ""
  staticIpv6 : String := ""
deriving DecidableEq

/-- Result of `slash_create`: the inventory afterwards, whether the
`incus launch` call was reached (it is the first runtime invocation in the
operation body), whether `save_data()` ran, whether the input-validation
rejection fired, and whether a record was appended. -/
structure CreateOutcome where
  inv : Inventory
  launchAttempted : Bool
  saved : Bool
  validationError : Bool
  created : Bool
deriving DecidableEq

/-- The `vps_info` dict literal of `slash_create` (v2.py lines 316-320). -/
def mkVpsRecord (name : String) (ram cpu : Int) (now ipv4 ipv6 : String) :
    VPSRecord :=
  { container_name := name, ram := pyStrInt ram ++ "GB", cpu := pyStrInt cpu,
    storage := "10GB", status := "running", created_at := now,
    ipv4 := ipv4, ipv6 := ipv6, shared_with := [] }

/-- Model of `if user_id not in vps_data: vps_data[user_id] = []` (v2.py line 297). -/
def ensureUser (inv : Inventory) (uid : String) : Inventory :=
  if (lookupStr inv uid).isSome then inv else setEntry inv uid []

/-- The addresses recorded by `slash_create`: the re-queried addresses when a
static request was applied successfully, otherwise the dynamic ones
(v2.py lines 305-315). -/
def chosenIps (env : CreateEnv) : String × String :=
  if env.reqIpv4.isSome ∨ env.reqIpv6.isSome then
    if env.staticOk then (env.staticIpv4, env.staticIpv6)
    else (env.dynIpv4, env.dynIpv6)
  else (env.dynIpv4, env.dynIpv6)

/-- Model of `slash_create(interaction, user, ram, cpu, ipv4, ipv6)`: reject
non-positive specs before touching the runtime; ensure the tenant key exists;
derive `container_name = f"vps-{user_id}-{vps_count}"` with
`vps_count = len(vps_data[user_id]) + 1`; launch; on launch success query
addresses (static request falling back to dynamic on failure), append the
record and persist; on launch failure take the `except` branch with nothing
appended and nothing persisted. -/
def slash_create (inv : Inventory) (uid : String) (ram cpu : Int)
    (env : CreateEnv) : CreateOutcome :=
  if ram ≤ 0 ∨ cpu ≤ 0 then
    { inv := inv, launchAttempted := false, saved := false,
      validationError := true, created := false }
  else
    let inv1 := ensureUser inv uid
    let vps_count := (getList inv1 uid).length + 1
    let cname := containerName uid vps_count
    if env.launchOk then
      let r := mkVpsRecord cname ram cpu env.now (chosenIps env).1 (chosenIps env).2
      { inv := setEntry inv1 uid (getList inv1 uid ++ [r]),
        launchAttempted := true, saved := true,
        validationError := false, created := true }
    else
      { inv := inv1, launchAttempted := true, saved := false,
        validationError := false, created := false }

/-! ### Lifecycle Manager: `slash_delete_vps` (v2.py lines 795-823) -/

/-- Result of `slash_delete_vps`. -/
structure DeleteOutcome where
  inv : Inventory
  saved : Bool
  deleted : Bool
deriving DecidableEq

/-- Model of `slash_delete_vps(interaction, user, vps_number, reason)`: validate owner
and 1-based number; `incus delete --force`; on success remove the record
(`del vps_data[user_id][vps_number - 1]`), drop the tenant key if its list
became empty, and persist; on runtime failure nothing changes. -/
def slash_delete_vps (inv : Inventory) (uid : String) (vps_number : Int)
    (deleteOk : Bool) : DeleteOutcome :=
  if (lookupStr inv uid).isSome = false ∨ vps_number < 1 ∨
      vps_number > (getList inv uid).length then
    { inv := inv, saved := false, deleted := false }
  else if deleteOk then
    let l := (getList inv uid).eraseIdx (vps_number.toNat - 1)
    let inv2 := if l.isEmpty then eraseUser inv uid else setEntry inv uid l
    { inv := inv2, saved := true, deleted := true }
  else
    { inv := inv, saved := false, deleted := false }

/-- One creation request: tenant, ram, cpu, and the runtime oracle. -/
abbrev CreateOp := String × Int × Int × CreateEnv

/-- Fold a sequence of `slash_create` invocations from the empty store. -/
def applyCreateOps (ops : List CreateOp) : Inventory :=
  ops.foldl (fun inv op => (slash_create inv op.1 op.2.1 op.2.2.1 op.2.2.2).inv) []

/-- Canonical shape of one tenant's list when only creations ever ran: the
i-th record (0-based) is named `vps-<uid>-<i+1>`. -/
def tenantOk (uid : String) (l : List VPSRecord) : Prop :=
  recordNames l = (List.range l.length).map (fun i => containerName uid (i + 1))

/-- Invariant of delete-free histories: tenant keys are distinct and every
tenant list is canonical. -/
def Canonical (inv : Inventory) : Prop :=
  (inv.map Prod.fst).Nodup ∧ ∀ p ∈ inv, tenantOk p.1 p.2

/-! ### Sharing: `slash_share_user` (v2.py lines 656-675) -/

/-- Result of `slash_share_user`. -/
structure ShareOutcome where
  inv : Inventory
  saved : Bool
  shared : Bool
deriving DecidableEq

/-- Effect of `vps["shared_with"].append(shared_user_id)` on one record. -/
def addShare (r : VPSRecord) (target : String) : VPSRecord :=
  { r with shared_with := r.shared_with ++ [target] }

/-- Model of `slash_share_user(interaction, shared_user, vps_number)`: the invoker
`user_id` must own a VPS with the given 1-based number; if the target is
already in `shared_with` reject; otherwise append the target id and persist.
There is no check that the target differs from the owner. -/
def slash_share_user (inv : Inventory) (user_id shared_user_id : String)
    (vps_number : Int) : ShareOutcome :=
  if (lookupStr inv user_id).isSome = false ∨ vps_number < 1 ∨
      vps_number > (getList inv user_id).length then
    { inv := inv, saved := false, shared := false }
  else if shared_user_id ∈
      ((getList inv user_id).getD (vps_number.toNat - 1) defaultRecord).shared_with then
    { inv := inv, saved := false, shared := false }
  else
    { inv := setEntry inv user_id ((getList inv user_id).set (vps_number.toNat - 1)
        (addShare ((getList inv user_id).getD (vps_number.toNat - 1) defaultRecord)
          shared_user_id)),
      saved := true, shared := true }

/-- The spec's sharing invariant: no record's `shared_with` contains the
tenant that owns it. -/
abbrev OwnerNotShared (inv : Inventory) : Prop :=
  ∀ p ∈ inv, ∀ r ∈ p.2, p.1 ∉ r.shared_with

/-! ### Credits: `slash_buywc` guard, `slash_admin_credits`,
`slash_admin_remove_credits` (v2.py lines 698-725, 840-878) -/

/-- The `prices` table of `slash_buywc` (v2.py lines 702-707). -/
def prices : List (String × List (String × Int)) :=
  [("Starter", [("Intel", 42), ("AMD", 83)]),
   ("Basic", [("Intel", 96), ("AMD", 164)]),
   ("Standard", [("Intel", 192), ("AMD", 320)]),
   ("Pro", [("Intel", 220), ("AMD", 340)])]

/-- The credit-ledger effect of `slash_buywc` (v2.py lines 714-725): invalid
plan or processor rejects with no change; insufficient balance rejects before
any deduction; otherwise the cost is deducted (and is never refunded later in
the function, whatever the launch outcome). -/
def slash_buywc_credits (b : Int) (plan processor : String) : Int :=
  match lookupStr prices plan with
  | none => b
  | some row =>
    if processor = "Intel" ∨ processor = "AMD" then
      match lookupStr row processor with
      | none => b
      | some cost => if b < cost then b else b - cost
    else b

/-- Model of `slash_admin_credits(interaction, user, amount)` (v2.py lines 840-851):
reject non-positive amounts, otherwise add. -/
def slash_admin_credits (b : Int) (amount : Int) : Int :=
  if amount ≤ 0 then b else b + amount

/-- Model of `slash_admin_remove_credits(interaction, user, amount_or_all)` (v2.py
lines 853-878): `"all"` zeroes the balance; a parsed positive amount is
clamped to the current balance then deducted; anything else rejects. -/
def slash_admin_remove_credits (b : Int) (amount_or_all : String) : Int :=
  if pyLower amount_or_all = "all" then 0
  else
    match pyIntOpt amount_or_all with
    | none => b
    | some amount =>
      if amount ≤ 0 then b
      else
        let amount2 := if amount > b then b else amount
        b - amount2

/-- One credit-ledger operation. -/
inductive CreditOp where
  | adminAdd (amount : Int)
  | adminRemove (arg : String)
  | buy (plan processor : String)

/-- Apply one credit operation to a tenant's balance. -/
def applyCreditOp (b : Int) (op : CreditOp) : Int :=
  match op with
  | .adminAdd a => slash_admin_credits b a
  | .adminRemove s => slash_admin_remove_credits b s
  | .buy p pr => slash_buywc_credits b p pr

/-! ### Admission Monitor: `cpu_monitor` (v2.py lines 229-253) and the
`/cpu_monitor` toggle (v2.py lines 1175-1193) -/

/-- Constant `CPU_THRESHOLD` (v2.py line 43). -/
def CPU_THRESHOLD : Nat := 90

/-- Constant `CHECK_INTERVAL` in seconds (v2.py line 44). -/
def CHECK_INTERVAL : Nat := 60

/-- The record flip performed after `incus stop --all --force` succeeds:
every record whose status is `"running"` becomes `"stopped"`. -/
def stopAllRecords (inv : Inventory) : Inventory :=
  inv.map (fun p => (p.1, p.2.map (fun r =>
    if r.status = "running" then { r with status := "stopped" } else r)))

/-- State threaded through iterations of the `cpu_monitor` loop body: the
fleet records and how many times the fleet-wide forced stop was invoked. -/
structure MonitorState where
  fleet : Inventory
  stopAllCalls : Nat
deriving DecidableEq

/-- One iteration of the `cpu_monitor` loop body on a sampled utilization:
`if cpu_usage > CPU_THRESHOLD` invoke `incus stop --all --force`, flip the
records and persist; otherwise do nothing.  The comparison is on the current
sample only: no edge detection, no re-arm state. -/
def cpu_monitor_step (s : MonitorState) (usage : Nat) : MonitorState :=
  if usage > CPU_THRESHOLD then
    { fleet := stopAllRecords s.fleet, stopAllCalls := s.stopAllCalls + 1 }
  else s

/-- Run the monitor loop body over a sequence of per-interval samples. -/
def cpu_monitor_run (s : MonitorState) (samples : List Nat) : MonitorState :=
  samples.foldl cpu_monitor_step s

/-- Joint state of the monitor thread and the `cpu_monitor_active` flag:
whether the thread is still inside its `while cpu_monitor_active` loop,
the flag value, and how many samples were taken. -/
structure MonitorSys where
  threadAlive : Bool
  cpu_monitor_active : Bool
  samplesTaken : Nat
deriving DecidableEq

/-- Events acting on the monitor: an elapsed `CHECK_INTERVAL` bringing the
thread back to its `while cpu_monitor_active` condition check, and the
`/cpu_monitor enable` / `/cpu_monitor disable` operator commands. -/
inductive MonitorEvent where
  | interval
  | enableCmd
  | disableCmd

/-- Step of the joint machine.  `enable`/`disable` are pure flag flips
(v2.py lines 1186-1191).  At an interval boundary a live thread re-checks
`while cpu_monitor_active`: if the flag is set it samples and loops; if the
flag is clear the loop exits and the thread terminates (v2.py line 231).
Nothing ever restarts a terminated thread. -/
def monitor_event_step (s : MonitorSys) (e : MonitorEvent) : MonitorSys :=
  match e with
  | .enableCmd => { s with cpu_monitor_active := true }
  | .disableCmd => { s with cpu_monitor_active := false }
  | .interval =>
    if s.threadAlive then
      if s.cpu_monitor_active then { s with samplesTaken := s.samplesTaken + 1 }
      else { s with threadAlive := false }
    else s

/-- Run the joint machine over an event trace. -/
def monitor_sys_run (s : MonitorSys) (es : List MonitorEvent) : MonitorSys :=
  es.foldl monitor_event_step s

/-- The state at bot startup: thread running, flag set, no samples yet
(v2.py lines 45 and 252-253). -/
def monitorInit : MonitorSys :=
  { threadAlive := true, cpu_monitor_active := true, samplesTaken := 0 }

/-! ### Record Store loader: `load_vps_data` (v2.py lines 60-79) -/

/-- JSON-like values as far as the loader distinguishes them:
`isinstance(v, dict)`, `isinstance(v, list)`, or anything else. -/
inductive JVal where
  | str : String → JVal
  | num : Int → JVal
  | obj : List (String × JVal) → JVal
  | arr : List JVal → JVal

/-- Python `"container_name" in v` for a dict. -/
def hasKeyJ : List (String × JVal) → String → Bool
  | [], _ => false
  | (k, _) :: rest, key => if k = key then true else hasKeyJ rest key

/-- A dict value that the data model counts as a VPS record: it carries a
`container_name` key. -/
def isRecordJ : JVal → Bool
  | .obj kvs => hasKeyJ kvs "container_name"
  | _ => false

/-- The per-tenant normalization of `load_vps_data`: a dict with a
`container_name` key is wrapped as a one-record list; any other dict yields
`list(v.values())`; a list is kept; any other shape is skipped with a logged
warning (`none`). -/
def normalizeTenant : JVal → Option (List JVal)
  | .obj kvs =>
    if hasKeyJ kvs "container_name" then some [.obj kvs]
    else some (kvs.map (fun p => p.2))
  | .arr xs => some xs
  | _ => none

/-- Model of `load_vps_data`: normalize each tenant entry in order, dropping the
unrecognized ones and continuing. -/
def load_vps_data (entries : List (String × JVal)) : List (String × List JVal) :=
  entries.filterMap (fun p => (normalizeTenant p.2).map (fun l => (p.1, l)))

/-! ### Concrete scenarios used in counterexamples -/

/-- A create-request oracle whose `incus launch` succeeds. -/
def envOkExample : CreateEnv :=
  { launchOk := true, now := "t", dynIpv4 := "a", dynIpv6 := "b" }

/-- The run create, create, delete #1, create for tenant "1", all runtime
calls succeeding. -/
def reuseScenario : Inventory :=
  (slash_create (slash_delete_vps
    (slash_create (slash_create [] "1" 1 1 envOkExample).inv "1" 1 1 envOkExample).inv
    "1" 1 true).inv "1" 1 1 envOkExample).inv

/-- A freshly created, unshared record of tenant "1". -/
def shareRecordExample : VPSRecord :=
  { container_name := "vps-1-1", ram := "4GB", cpu := "1", storage := "10GB",
    status := "running", created_at := "t", ipv4 := "a", ipv6 := "b",
    shared_with := [] }

/-- Tenant "1" sharing their own VPS #1 with themselves. -/
def shareSelfScenario : ShareOutcome :=
  slash_share_user [("1", [shareRecordExample])] "1" "1" 1

/-- Monitor trace: disable, one observed interval (the loop exits), enable,
then three further intervals. -/
def monitorTraceExample : MonitorSys :=
  monitor_sys_run monitorInit
    [MonitorEvent.disableCmd, MonitorEvent.interval, MonitorEvent.enableCmd,
     MonitorEvent.interval, MonitorEvent.interval, MonitorEvent.interval]

/-- A VPS record encoded as a JSON dict. -/
def recordJExample : JVal := JVal.obj [("container_name", JVal.str "vps-1-1")]

/-! ### Helper lemmas: decimal rendering -/

/-- With sufficient fuel, folding the digit values over `natToDecAux` recovers
the number, and no rendered digit is a hyphen. -/
theorem natToDecAux_spec (fuel : Nat) : ∀ n, n < fuel →
    (∀ a, (natToDecAux fuel n).foldl (fun a c => 10 * a + decDigitVal c) a =
      a * 10 ^ (natToDecAux fuel n).length + n) ∧
    (∀ c ∈ natToDecAux fuel n, c ≠ '-') := by
  induction fuel with
  | zero => intro n h; omega
  | succ f ih =>
    intro n h
    by_cases h10 : n < 10
    · constructor
      · intro a
        simp [natToDecAux, h10, List.foldl, decDigitVal]
        have : (Nat.digitChar n).toNat - 48 = n := by
          interval_cases n <;> decide
        omega
      · intro c hc
        simp [natToDecAux, h10] at hc
        subst hc
        interval_cases n <;> decide
    · have hdiv : n / 10 < f := by omega
      have ihd := ih (n / 10) hdiv
      constructor
      · intro a
        simp only [natToDecAux, if_neg h10]
        rw [List.foldl_append]
        rw [ihd.1 a]
        simp [List.length_append, decDigitVal]
        have hc : (Nat.digitChar (n % 10)).toNat - 48 = n % 10 := by
          have : n % 10 < 10 := Nat.mod_lt _ (by omega)
          interval_cases h : (n % 10) <;> decide
        rw [hc]
        rw [pow_succ]
        have : 10 * (a * 10 ^ (natToDecAux f (n / 10)).length + n / 10) + n % 10 =
            a * (10 ^ (natToDecAux f (n / 10)).length * 10) + (10 * (n / 10) + n % 10) := by
          ring
        rw [this]
        congr 1
        omega
      · intro c hc
        simp only [natToDecAux, if_neg h10, List.mem_append, List.mem_singleton] at hc
        rcases hc with hc | hc
        · exact ihd.2 c hc
        · subst hc
          have : n % 10 < 10 := Nat.mod_lt _ (by omega)
          interval_cases h : (n % 10) <;> decide

/-- Reading the rendered digits back gives the number. -/
theorem decVal_natToDec (n : Nat) : decVal (natToDec n) = n := by
  have := (natToDecAux_spec (n + 1) n (by omega)).1 0
  simpa [decVal, natToDec] using this

/-- Decimal rendering is injective. -/
theorem natToDec_inj : Function.Injective natToDec := by
  intro a b h
  have ha := decVal_natToDec a
  have hb := decVal_natToDec b
  rw [h] at ha
  omega

/-- No digit of a decimal rendering is a hyphen. -/
theorem natToDec_no_hyphen (n : Nat) : ∀ c ∈ natToDec n, c ≠ '-' :=
  (natToDecAux_spec (n + 1) n (by omega)).2

/-- Unique decomposition at the first hyphen: hyphen-free prefixes and the
remainders of two equal decompositions agree. -/
theorem splitFirstHyphen : ∀ (x y a b : List Char),
    (∀ c ∈ x, c ≠ '-') → (∀ c ∈ y, c ≠ '-') →
    x ++ '-' :: a = y ++ '-' :: b → x = y ∧ a = b := by
  intro x
  induction x with
  | nil =>
    intro y a b _ hy h
    cases y with
    | nil => simpa using h
    | cons c ys =>
      exfalso
      simp at h
      exact hy c (by simp) h.1.symm
  | cons c xs ih =>
    intro y a b hx hy h
    cases y with
    | nil =>
      exfalso
      simp at h
      exact hx c (by simp) h.1
    | cons d ys =>
      simp at h
      obtain ⟨hcd, hrest⟩ := h
      have := ih ys a b (fun e he => hx e (by simp [he])) (fun e he => hy e (by simp [he])) hrest
      exact ⟨by simp [hcd, this.1], this.2⟩

/-- Unique decomposition at the last hyphen: if the suffixes are hyphen-free,
the prefixes and suffixes of two equal decompositions agree. -/
theorem splitLastHyphen (a b x y : List Char)
    (hx : ∀ c ∈ x, c ≠ '-') (hy : ∀ c ∈ y, c ≠ '-')
    (h : a ++ '-' :: x = b ++ '-' :: y) : a = b ∧ x = y := by
  have hrev : x.reverse ++ '-' :: a.reverse = y.reverse ++ '-' :: b.reverse := by
    have := congrArg List.reverse h
    simpa [List.reverse_append] using this
  have := splitFirstHyphen x.reverse y.reverse a.reverse b.reverse
    (fun c hc => hx c (List.mem_reverse.mp hc)) (fun c hc => hy c (List.mem_reverse.mp hc)) hrev
  exact ⟨List.reverse_injective this.2, List.reverse_injective this.1⟩

/-- The character data of a derived container name. -/
theorem containerName_data (uid : String) (count : Nat) :
    (containerName uid count).data =
      ('v' :: 'p' :: 's' :: '-' :: uid.data) ++ '-' :: natToDec count := by
  simp [containerName, String.data_append, pyStrNat]

/-- Container names determine the tenant and the sequence number. -/
theorem containerName_inj (u1 u2 : String) (n1 n2 : Nat)
    (h : containerName u1 n1 = containerName u2 n2) : u1 = u2 ∧ n1 = n2 := by
  have hd : (containerName u1 n1).data = (containerName u2 n2).data := by rw [h]
  rw [containerName_data, containerName_data] at hd
  have hsplit := splitLastHyphen _ _ _ _ (natToDec_no_hyphen n1) (natToDec_no_hyphen n2) hd
  obtain ⟨h1, h2⟩ := hsplit
  constructor
  · have : u1.data = u2.data := by simpa using h1
    cases u1; cases u2; exact congrArg String.mk this
  · exact natToDec_inj h2

/-! ### Helper lemmas: the association-list store -/

/-- A key that fails to look up heads no entry. -/
theorem lookupStr_none {α : Type} (m : List (String × α)) (key : String)
    (h : lookupStr m key = none) : ∀ p ∈ m, p.1 ≠ key := by
  induction m with
  | nil => intro p hp; cases hp
  | cons q rest ih =>
    intro p hp
    obtain ⟨k, v⟩ := q
    by_cases hk : k = key
    · simp [lookupStr, hk] at h
    · simp only [lookupStr, if_neg hk] at h
      rcases List.mem_cons.mp hp with hq | hq
      · subst hq; exact hk
      · exact ih h p hq

/-- A key absent from the key list fails to look up. -/
theorem lookupStr_eq_none_of_not_mem {α : Type} (m : List (String × α)) (key : String)
    (h : key ∉ m.map Prod.fst) : lookupStr m key = none := by
  induction m with
  | nil => rfl
  | cons q rest ih =>
    obtain ⟨k, v⟩ := q
    simp only [List.map_cons, List.mem_cons] at h
    push_neg at h
    have hk : k ≠ key := fun he => h.1 he.symm
    simp only [lookupStr, if_neg hk]
    exact ih h.2

/-- A successful lookup exhibits a member entry. -/
theorem mem_of_lookupStr {α : Type} (m : List (String × α)) (key : String) (v : α)
    (h : lookupStr m key = some v) : (key, v) ∈ m := by
  induction m with
  | nil => cases h
  | cons q rest ih =>
    obtain ⟨k, w⟩ := q
    by_cases hk : k = key
    · subst hk
      simp [lookupStr] at h
      simp [h]
    · simp only [lookupStr, if_neg hk] at h
      exact List.mem_cons_of_mem _ (ih h)

/-- Looking up the replaced key yields the new value whenever it occurs. -/
theorem lookupStr_replaceEntry_self {α : Type} (m : List (String × α)) (key : String) (w : α)
    (h : (lookupStr m key).isSome) : lookupStr (replaceEntry m key w) key = some w := by
  induction m with
  | nil => simp [lookupStr] at h
  | cons q rest ih =>
    obtain ⟨k, v⟩ := q
    by_cases hk : k = key
    · simp [replaceEntry, hk, lookupStr]
    · have h2 : (lookupStr rest key).isSome := by simpa [lookupStr, if_neg hk] using h
      simpa [replaceEntry, if_neg hk, lookupStr, if_neg hk] using ih h2

/-- Replacing one key leaves other lookups unchanged. -/
theorem lookupStr_replaceEntry_other {α : Type} (m : List (String × α)) (key t : String) (w : α)
    (ht : t ≠ key) : lookupStr (replaceEntry m key w) t = lookupStr m t := by
  induction m with
  | nil => rfl
  | cons q rest ih =>
    obtain ⟨k, v⟩ := q
    by_cases hk : k = key
    · subst hk
      have hkt : k ≠ t := fun he => ht he.symm
      simp only [replaceEntry, if_pos rfl, lookupStr, if_neg hkt, ih]
    · simp only [replaceEntry, if_neg hk, lookupStr, ih]

/-- Appending a fresh entry makes its key look up to its value. -/
theorem lookupStr_append_single {α : Type} (m : List (String × α)) (key : String) (w : α)
    (h : lookupStr m key = none) : lookupStr (m ++ [(key, w)]) key = some w := by
  induction m with
  | nil => simp [lookupStr]
  | cons q rest ih =>
    obtain ⟨k, v⟩ := q
    by_cases hk : k = key
    · simp [lookupStr, hk] at h
    · simp only [List.cons_append, lookupStr, if_neg hk]
      exact ih (by simpa [lookupStr, if_neg hk] using h)

/-- Appending an entry leaves other lookups unchanged. -/
theorem lookupStr_append_single_other {α : Type} (m : List (String × α)) (key t : String)
    (w : α) (ht : t ≠ key) : lookupStr (m ++ [(key, w)]) t = lookupStr m t := by
  induction m with
  | nil =>
    have : key ≠ t := fun he => ht he.symm
    simp [lookupStr, if_neg this]
  | cons q rest ih =>
    obtain ⟨k, v⟩ := q
    by_cases hk : k = t
    · simp [lookupStr, hk]
    · simp only [List.cons_append, lookupStr, if_neg hk]
      exact ih

/-- Lookup after Python dict assignment, same key. -/
theorem lookupStr_setEntry_self {α : Type} (m : List (String × α)) (key : String) (w : α) :
    lookupStr (setEntry m key w) key = some w := by
  unfold setEntry
  by_cases h : (lookupStr m key).isSome
  · rw [if_pos h]
    exact lookupStr_replaceEntry_self m key w h
  · rw [if_neg h]
    exact lookupStr_append_single m key w (Option.not_isSome_iff_eq_none.mp h)

/-- Lookup after Python dict assignment, other key. -/
theorem lookupStr_setEntry_other {α : Type} (m : List (String × α)) (key t : String) (w : α)
    (ht : t ≠ key) : lookupStr (setEntry m key w) t = lookupStr m t := by
  unfold setEntry
  by_cases h : (lookupStr m key).isSome
  · rw [if_pos h]
    exact lookupStr_replaceEntry_other m key t w ht
  · rw [if_neg h]
    exact lookupStr_append_single_other m key t w ht

/-- Replacement preserves the key list. -/
theorem keys_replaceEntry {α : Type} (m : List (String × α)) (key : String) (w : α) :
    (replaceEntry m key w).map Prod.fst = m.map Prod.fst := by
  induction m with
  | nil => rfl
  | cons q rest ih =>
    obtain ⟨k, v⟩ := q
    by_cases hk : k = key
    · simp [replaceEntry, hk, ih]
    · simp [replaceEntry, if_neg hk, ih]

/-- Assignment to an existing key preserves the key list. -/
theorem keys_setEntry_mem {α : Type} (m : List (String × α)) (key : String) (w : α)
    (h : (lookupStr m key).isSome) :
    (setEntry m key w).map Prod.fst = m.map Prod.fst := by
  unfold setEntry
  rw [if_pos h]
  exact keys_replaceEntry m key w

/-- Assignment to a fresh key appends it to the key list. -/
theorem keys_setEntry_not_mem {α : Type} (m : List (String × α)) (key : String) (w : α)
    (h : ¬ (lookupStr m key).isSome) :
    (setEntry m key w).map Prod.fst = m.map Prod.fst ++ [key] := by
  unfold setEntry
  rw [if_neg h]
  simp

/-- Membership after Python dict assignment. -/
theorem mem_setEntry {α : Type} (m : List (String × α)) (key : String) (w : α)
    (p : String × α) (hp : p ∈ setEntry m key w) :
    p = (key, w) ∨ (p ∈ m ∧ p.1 ≠ key) := by
  unfold setEntry at hp
  by_cases h : (lookupStr m key).isSome
  · rw [if_pos h] at hp
    clear h
    induction m with
    | nil => cases hp
    | cons q rest ih =>
      obtain ⟨k, v⟩ := q
      by_cases hk : k = key
      · simp only [replaceEntry, if_pos hk] at hp
        rcases List.mem_cons.mp hp with hq | hq
        · left; exact hq
        · rcases ih hq with hq2 | hq2
          · left; exact hq2
          · right; exact ⟨List.mem_cons_of_mem _ hq2.1, hq2.2⟩
      · simp only [replaceEntry, if_neg hk] at hp
        rcases List.mem_cons.mp hp with hq | hq
        · right
          subst hq
          exact ⟨List.mem_cons_self _ _, hk⟩
        · rcases ih hq with hq2 | hq2
          · left; exact hq2
          · right; exact ⟨List.mem_cons_of_mem _ hq2.1, hq2.2⟩
  · rw [if_neg h] at hp
    rcases List.mem_append.mp hp with hq | hq
    · right
      refine ⟨hq, ?_⟩
      have hnone : lookupStr m key = none := by
        cases hl : lookupStr m key with
        | none => rfl
        | some v => rw [hl] at h; simp at h
      exact lookupStr_none m key hnone p hq
    · left
      simpa using hq
/-- The empty tenant list is canonical. -/
theorem tenantOk_nil (uid : String) : tenantOk uid [] := by
  simp [tenantOk, recordNames]

/-- Appending the record named with the next sequence number preserves
canonicity. -/
theorem tenantOk_append (uid : String) (l : List VPSRecord) (r : VPSRecord)
    (hl : tenantOk uid l) (hr : r.container_name = containerName uid (l.length + 1)) :
    tenantOk uid (l ++ [r]) := by
  unfold tenantOk at hl ⊢
  simp only [recordNames, List.map_append, List.length_append, List.map_cons,
    List.map_nil, List.length_cons, List.length_nil]
  rw [List.range_succ, List.map_append]
  simp only [List.map_cons, List.map_nil]
  have h1 : List.map (fun r => r.container_name) l =
      List.map (fun i => containerName uid (i + 1)) (List.range l.length) := hl
  rw [h1, hr]

/-- A canonical tenant list has pairwise-distinct names. -/
theorem tenantOk_nodup (uid : String) (l : List VPSRecord) (h : tenantOk uid l) :
    (recordNames l).Nodup := by
  rw [h]
  apply List.Nodup.map
  · intro a b hab
    have := (containerName_inj uid uid (a + 1) (b + 1) hab).2
    omega
  · exact List.nodup_range _

/-- A member of a canonical tenant list is named with that tenant's id. -/
theorem tenantOk_name_shape (uid : String) (l : List VPSRecord) (h : tenantOk uid l)
    (x : String) (hx : x ∈ recordNames l) : ∃ i, x = containerName uid (i + 1) := by
  rw [h] at hx
  obtain ⟨i, _, hi⟩ := List.mem_map.mp hx
  exact ⟨i, hi.symm⟩

/-- A canonical inventory has globally pairwise-distinct container names. -/
theorem canonical_nodupNames (inv : Inventory) (h : Canonical inv) : NodupNames inv := by
  obtain ⟨hkeys, hten⟩ := h
  unfold NodupNames inventoryNames
  rw [List.nodup_flatten]
  constructor
  · intro s hs
    obtain ⟨p, hp, hps⟩ := List.mem_map.mp hs
    rw [← hps]
    exact tenantOk_nodup p.1 p.2 (hten p hp)
  · have hpair : inv.Pairwise (fun p q => p.1 ≠ q.1) :=
      (List.pairwise_map (f := Prod.fst) (R := fun a b => a ≠ b)).mp hkeys
    have hdisj : inv.Pairwise
        (fun p q => List.Disjoint (recordNames p.2) (recordNames q.2)) := by
      refine List.Pairwise.imp_of_mem ?_ hpair
      intro p q hp hq hne x hxp hxq
      obtain ⟨i, hi⟩ := tenantOk_name_shape p.1 p.2 (hten p hp) x hxp
      obtain ⟨j, hj⟩ := tenantOk_name_shape q.1 q.2 (hten q hq) x hxq
      exact hne (containerName_inj p.1 q.1 (i + 1) (j + 1) (hi ▸ hj ▸ rfl)).1
    exact (List.pairwise_map).mpr hdisj

/-- A key present in the key list looks up successfully. -/
theorem lookupStr_isSome_of_mem_keys {α : Type} (m : List (String × α)) (key : String)
    (h : key ∈ m.map Prod.fst) : (lookupStr m key).isSome := by
  induction m with
  | nil => simp at h
  | cons q rest ih =>
    obtain ⟨k, v⟩ := q
    by_cases hk : k = key
    · simp [lookupStr, hk]
    · simp only [List.map_cons, List.mem_cons] at h
      rcases h with h | h
      · exact absurd h.symm hk
      · simpa [lookupStr, if_neg hk] using ih h

/-- The helper `ensureUser` leaves every tenant's record list unchanged. -/
theorem getList_ensureUser (inv : Inventory) (uid t : String) :
    getList (ensureUser inv uid) t = getList inv t := by
  unfold ensureUser
  by_cases hm : (lookupStr inv uid).isSome
  · rw [if_pos hm]
  · rw [if_neg hm]
    by_cases ht : t = uid
    · subst ht
      rw [getList, lookupStr_setEntry_self]
      rw [getList, Option.not_isSome_iff_eq_none.mp hm]
    · rw [getList, lookupStr_setEntry_other inv uid t [] ht, getList]

/-- After `ensureUser` the tenant key always looks up. -/
theorem lookupStr_ensureUser_isSome (inv : Inventory) (uid : String) :
    (lookupStr (ensureUser inv uid) uid).isSome := by
  unfold ensureUser
  by_cases hm : (lookupStr inv uid).isSome
  · rwa [if_pos hm]
  · rw [if_neg hm, lookupStr_setEntry_self]
    rfl

/-- The helper `ensureUser` does not change the multiset of container names. -/
theorem inventoryNames_ensureUser (inv : Inventory) (uid : String) :
    inventoryNames (ensureUser inv uid) = inventoryNames inv := by
  unfold ensureUser
  by_cases hm : (lookupStr inv uid).isSome
  · rw [if_pos hm]
  · rw [if_neg hm]
    unfold setEntry
    rw [if_neg hm]
    simp [inventoryNames, recordNames]

/-- The helper `ensureUser` preserves the canonical invariant. -/
theorem canonical_ensureUser (inv : Inventory) (uid : String) (h : Canonical inv) :
    Canonical (ensureUser inv uid) := by
  unfold ensureUser
  by_cases hm : (lookupStr inv uid).isSome
  · rwa [if_pos hm]
  · rw [if_neg hm]
    obtain ⟨hkeys, hten⟩ := h
    constructor
    · rw [keys_setEntry_not_mem inv uid [] hm]
      refine List.Nodup.append hkeys (List.nodup_singleton uid) ?_
      intro a ha hb
      simp only [List.mem_singleton] at hb
      subst hb
      exact hm (lookupStr_isSome_of_mem_keys inv a ha)
    · intro p hp
      rcases mem_setEntry inv uid [] p hp with hq | hq
      · rw [hq]
        exact tenantOk_nil uid
      · exact hten p hq.1

/-- Branch equation: validation rejection. -/
theorem slash_create_eq_validation (inv : Inventory) (uid : String) (ram cpu : Int)
    (env : CreateEnv) (hval : ram ≤ 0 ∨ cpu ≤ 0) :
    slash_create inv uid ram cpu env =
      { inv := inv, launchAttempted := false, saved := false,
        validationError := true, created := false } := by
  unfold slash_create
  rw [if_pos hval]

/-- Branch equation: `incus launch` raised. -/
theorem slash_create_eq_launch_fail (inv : Inventory) (uid : String) (ram cpu : Int)
    (env : CreateEnv) (hval : ¬(ram ≤ 0 ∨ cpu ≤ 0)) (he : env.launchOk = false) :
    slash_create inv uid ram cpu env =
      { inv := ensureUser inv uid, launchAttempted := true, saved := false,
        validationError := false, created := false } := by
  unfold slash_create
  rw [if_neg hval]
  simp only [he, Bool.false_eq_true, if_false]

/-- Branch equation: `incus launch` succeeded. -/
theorem slash_create_eq_launch_ok (inv : Inventory) (uid : String) (ram cpu : Int)
    (env : CreateEnv) (hval : ¬(ram ≤ 0 ∨ cpu ≤ 0)) (he : env.launchOk = true) :
    slash_create inv uid ram cpu env =
      { inv := setEntry (ensureUser inv uid) uid (getList (ensureUser inv uid) uid ++
          [mkVpsRecord (containerName uid ((getList (ensureUser inv uid) uid).length + 1))
            ram cpu env.now (chosenIps env).1 (chosenIps env).2]),
        launchAttempted := true, saved := true,
        validationError := false, created := true } := by
  unfold slash_create
  rw [if_neg hval]
  simp only [he, if_true]

/-- One `slash_create` invocation preserves the canonical invariant. -/
theorem canonical_slash_create (inv : Inventory) (uid : String) (ram cpu : Int)
    (env : CreateEnv) (h : Canonical inv) :
    Canonical (slash_create inv uid ram cpu env).inv := by
  by_cases hval : ram ≤ 0 ∨ cpu ≤ 0
  · rw [slash_create_eq_validation inv uid ram cpu env hval]
    exact h
  · cases he : env.launchOk
    · rw [slash_create_eq_launch_fail inv uid ram cpu env hval he]
      exact canonical_ensureUser inv uid h
    · rw [slash_create_eq_launch_ok inv uid ram cpu env hval he]
      have h1 : Canonical (ensureUser inv uid) := canonical_ensureUser inv uid h
      obtain ⟨hkeys, hten⟩ := h1
      have hsome : (lookupStr (ensureUser inv uid) uid).isSome :=
        lookupStr_ensureUser_isSome inv uid
      have hlook : lookupStr (ensureUser inv uid) uid = some (getList (ensureUser inv uid) uid) := by
        obtain ⟨l, hl⟩ := Option.isSome_iff_exists.mp hsome
        rw [hl, getList, hl]
      constructor
      · rw [keys_setEntry_mem _ _ _ hsome]
        exact hkeys
      · intro p hp
        rcases mem_setEntry _ _ _ p hp with hq | hq
        · rw [hq]
          refine tenantOk_append uid _ _ ?_ rfl
          exact hten (uid, getList (ensureUser inv uid) uid) (mem_of_lookupStr _ _ _ hlook)
        · exact hten p hq.1
/-- An in-range `getD` is a member of the list. -/
theorem getD_mem {α : Type} (l : List α) (i : Nat) (d : α) (h : i < l.length) :
    l.getD i d ∈ l := by
  rw [List.getD_eq_getElem l d h]
  exact List.getElem_mem h

/-- A string with a non-empty left append component is non-empty. -/
theorem string_append_ne_empty_left (a b : String) (ha : a ≠ "") : a ++ b ≠ "" := by
  intro h
  have hd : a.data ++ b.data = [] := by
    have := congrArg String.data h
    simpa [String.data_append] using this
  have h2 : a.data = [] := (List.append_eq_nil.mp hd).1
  exact ha (String.ext h2)

/-- A string with a non-empty right append component is non-empty. -/
theorem string_append_ne_empty_right (a b : String) (hb : b ≠ "") : a ++ b ≠ "" := by
  intro h
  have hd : a.data ++ b.data = [] := by
    have := congrArg String.data h
    simpa [String.data_append] using this
  have h2 : b.data = [] := (List.append_eq_nil.mp hd).2
  exact hb (String.ext h2)

/-- Non-negativity of one `slash_admin_credits` step. -/
theorem credits_add_nonneg (b amount : Int) (hb : 0 ≤ b) :
    0 ≤ slash_admin_credits b amount := by
  unfold slash_admin_credits
  by_cases h : amount ≤ 0
  · rwa [if_pos h]
  · rw [if_neg h]; omega

/-- Non-negativity of one `slash_admin_remove_credits` step. -/
theorem credits_remove_nonneg (b : Int) (arg : String) (hb : 0 ≤ b) :
    0 ≤ slash_admin_remove_credits b arg := by
  unfold slash_admin_remove_credits
  by_cases hall : pyLower arg = "all"
  · rw [if_pos hall]
  · rw [if_neg hall]
    cases pyIntOpt arg with
    | none => exact hb
    | some amount =>
      simp only
      by_cases hneg : amount ≤ 0
      · rwa [if_pos hneg]
      · rw [if_neg hneg]
        by_cases hgt : amount > b
        · rw [if_pos hgt]; omega
        · rw [if_neg hgt]; omega

/-- Non-negativity of one `slash_buywc_credits` step. -/
theorem credits_buy_nonneg (b : Int) (plan processor : String) (hb : 0 ≤ b) :
    0 ≤ slash_buywc_credits b plan processor := by
  unfold slash_buywc_credits
  cases lookupStr prices plan with
  | none => exact hb
  | some row =>
    simp only
    by_cases hproc : processor = "Intel" ∨ processor = "AMD"
    · rw [if_pos hproc]
      cases lookupStr row processor with
      | none => exact hb
      | some cost =>
        simp only
        by_cases hlt : b < cost
        · rwa [if_pos hlt]
        · rw [if_neg hlt]; omega
    · rwa [if_neg hproc]

/-! ### Claim theorems -/

/-- C1 (counterexample): the claim says the forced stop fires exactly once on
the simulated utilization sequence `[50, 95, 95, 40]` with threshold 90
(edge-triggered).  The loop body of `cpu_monitor` compares only the current
sample, so it fires on both samples of 95: twice, not once. -/
theorem c1_counterexample :
    (cpu_monitor_run { fleet := [], stopAllCalls := 0 } [50, 95, 95, 40]).stopAllCalls = 2 ∧
    ¬ (cpu_monitor_run { fleet := [], stopAllCalls := 0 } [50, 95, 95, 40]).stopAllCalls = 1 := by
  decide

/-- C1 (amended): the monitor is level-triggered: over any sample sequence the
fleet-wide forced stop is invoked exactly once per sample strictly above
`CPU_THRESHOLD` — so twice on `[50, 95, 95, 40]` — and never on a sample at or
below the threshold. -/
theorem c1_amended :
    (∀ (s : MonitorState) (samples : List Nat),
      (cpu_monitor_run s samples).stopAllCalls =
        s.stopAllCalls + (samples.filter (fun u => u > CPU_THRESHOLD)).length) ∧
    (cpu_monitor_run { fleet := [], stopAllCalls := 0 } [50, 95, 95, 40]).stopAllCalls = 2 ∧
    (∀ (s : MonitorState) (u : Nat), u ≤ CPU_THRESHOLD → cpu_monitor_step s u = s) := by
  refine ⟨?_, by decide, ?_⟩
  · intro s samples
    induction samples generalizing s with
    | nil => simp [cpu_monitor_run]
    | cons a as ih =>
      simp only [cpu_monitor_run, List.foldl_cons] at ih ⊢
      rw [ih (cpu_monitor_step s a)]
      by_cases ha : a > CPU_THRESHOLD
      · simp only [cpu_monitor_step, if_pos ha, List.filter_cons,
          decide_eq_true_eq, if_pos ha]
        simp [ha]
        omega
      · simp only [cpu_monitor_step, if_neg ha, List.filter_cons]
        simp [ha]
  · intro s u h
    unfold cpu_monitor_step
    rw [if_neg (Nat.not_lt.mpr h)]

/-- C1 (amended, witness). -/
theorem c1_amended_witness :
    (cpu_monitor_run { fleet := [], stopAllCalls := 0 } [50, 95, 95, 40]).stopAllCalls = 2 ∧
    cpu_monitor_step { fleet := [], stopAllCalls := 0 } 40 =
      { fleet := [], stopAllCalls := 0 } :=
  ⟨c1_amended.2.1, c1_amended.2.2 { fleet := [], stopAllCalls := 0 } 40 (by decide)⟩

/-- C2: the user-facing start, stop and reinstall paths of `ManageView` call
the helper `execute_lxc`, a name bound nowhere in the module (only
`execute_incus` exists), so the call raises `NameError`, the `except` branch
always runs, and the record and persisted inventory are left unchanged —
for every record and every runtime-outcome oracle. -/
theorem c2_lxc_undefined :
    ∀ (vps : VPSRecord) (runOk delOk relaunchOk : Bool) (now : String),
    nameDefined "execute_lxc" = false ∧
    startCallback vps runOk = { record := vps, saved := false, errorBranch := true } ∧
    stopCallback vps runOk = { record := vps, saved := false, errorBranch := true } ∧
    reinstallConfirm vps delOk relaunchOk now =
      { record := vps, saved := false, errorBranch := true } := by
  intro vps runOk delOk relaunchOk now
  have h : nameDefined "execute_lxc" = false := by decide
  refine ⟨h, ?_, ?_, ?_⟩
  · simp [startCallback, callGlobal, h]
  · simp [stopCallback, callGlobal, h]
  · simp [reinstallConfirm, callGlobal, h]

/-- C3: for positive ram and cpu, `slash_create` appends a record only if the
`incus launch` call succeeds; when the launch raises, every tenant's record
list — and hence the set of container names — is unchanged, and nothing is
persisted (`save_data` is not reached). -/
theorem c3_create_rollback :
    ∀ (inv : Inventory) (uid : String) (ram cpu : Int) (env : CreateEnv),
    0 < ram → 0 < cpu →
    ((slash_create inv uid ram cpu env).created = true → env.launchOk = true) ∧
    (env.launchOk = false →
      (∀ t, getList (slash_create inv uid ram cpu env).inv t = getList inv t) ∧
      inventoryNames (slash_create inv uid ram cpu env).inv = inventoryNames inv ∧
      (slash_create inv uid ram cpu env).saved = false) := by
  intro inv uid ram cpu env hr hc
  have hval : ¬(ram ≤ 0 ∨ cpu ≤ 0) := by
    simp only [not_or]
    constructor <;> omega
  constructor
  · intro hcr
    cases he : env.launchOk with
    | true => rfl
    | false =>
      rw [slash_create_eq_launch_fail inv uid ram cpu env hval he] at hcr
      simp at hcr
  · intro he
    rw [slash_create_eq_launch_fail inv uid ram cpu env hval he]
    exact ⟨fun t => getList_ensureUser inv uid t, inventoryNames_ensureUser inv uid, rfl⟩

/-- C3 (witness). -/
theorem c3_create_rollback_witness :
    getList (slash_create [] "1" 1 1
      { launchOk := false, now := "t", dynIpv4 := "a", dynIpv6 := "b" }).inv "1" =
      getList ([] : Inventory) "1" ∧
    (slash_create [] "1" 1 1
      { launchOk := false, now := "t", dynIpv4 := "a", dynIpv6 := "b" }).saved = false := by
  have h := c3_create_rollback [] "1" 1 1
    { launchOk := false, now := "t", dynIpv4 := "a", dynIpv6 := "b" } (by decide) (by decide)
  exact ⟨(h.2 rfl).1 "1", (h.2 rfl).2.2⟩

/-- C4 (counterexample): `container_id` is derived as `vps-<owner>-<len+1>`,
so after create, create, delete #1, create for one tenant (launches
succeeding), the inventory holds two records both named `vps-1-2`: the claimed
global uniqueness after arbitrary create/delete sequences is false, and the
delete-then-create scenario does reuse an existing container id. -/
theorem c4_counterexample :
    inventoryNames reuseScenario = ["vps-1-2", "vps-1-2"] ∧ ¬ NodupNames reuseScenario := by
  decide

/-- C4 (amended): uniqueness holds for delete-free histories: after any
sequence of `slash_create` invocations (any tenants, any specs, any launch
outcomes) starting from the empty inventory, no two records in the whole
inventory share a `container_name`. -/
theorem c4_amended (ops : List CreateOp) : NodupNames (applyCreateOps ops) := by
  have hstep : ∀ (l : List CreateOp) (inv : Inventory), Canonical inv →
      Canonical (l.foldl (fun inv op =>
        (slash_create inv op.1 op.2.1 op.2.2.1 op.2.2.2).inv) inv) := by
    intro l
    induction l with
    | nil => intro inv h; exact h
    | cons a as ih =>
      intro inv h
      exact ih _ (canonical_slash_create inv a.1 a.2.1 a.2.2.1 a.2.2.2 h)
  have hcan : Canonical (applyCreateOps ops) := by
    unfold applyCreateOps
    refine hstep ops [] ⟨by simp, ?_⟩
    intro p hp
    cases hp
  exact canonical_nodupNames _ hcan

/-- C5 (counterexample): `slash_share_user` never checks that the target
differs from the owner, so an owner sharing VPS #1 with themselves puts their
own id into `shared_with`, violating the claimed invariant. -/
theorem c5_counterexample :
    shareSelfScenario.shared = true ∧
    "1" ∈ ((getList shareSelfScenario.inv "1").getD 0 defaultRecord).shared_with := by
  decide

/-- C5 (amended): the sharing invariant is preserved by `slash_share_user`
whenever the target is not the owner: if no record's `shared_with` contains
its owner beforehand, the same holds afterwards. -/
theorem c5_amended :
    ∀ (inv : Inventory) (user_id shared_user_id : String) (vps_number : Int),
    OwnerNotShared inv → shared_user_id ≠ user_id →
    OwnerNotShared (slash_share_user inv user_id shared_user_id vps_number).inv := by
  intro inv user target n hinv hne
  unfold slash_share_user
  by_cases hg : (lookupStr inv user).isSome = false ∨ n < 1 ∨
      n > (getList inv user).length
  · rw [if_pos hg]
    exact hinv
  · rw [if_neg hg]
    by_cases hmem : target ∈ ((getList inv user).getD (n.toNat - 1) defaultRecord).shared_with
    · rw [if_pos hmem]
      exact hinv
    · rw [if_neg hmem]
      push_neg at hg
      obtain ⟨hsome, hge, hle⟩ := hg
      have hsome2 : (lookupStr inv user).isSome := by
        cases h2 : (lookupStr inv user).isSome
        · exact absurd h2 hsome
        · rfl
      have hlook : lookupStr inv user = some (getList inv user) := by
        obtain ⟨l, hl⟩ := Option.isSome_iff_exists.mp hsome2
        rw [hl, getList, hl]
      have howner : (user, getList inv user) ∈ inv := mem_of_lookupStr _ _ _ hlook
      have hidx : n.toNat - 1 < (getList inv user).length := by omega
      have hvps : (getList inv user).getD (n.toNat - 1) defaultRecord ∈ getList inv user :=
        getD_mem _ _ _ hidx
      intro p hp r hr
      rcases mem_setEntry _ _ _ p hp with hq | hq
      · rw [hq] at hr ⊢
        simp only at hr ⊢
        rcases List.mem_or_eq_of_mem_set hr with hrl | hrv
        · exact hinv (user, getList inv user) howner r hrl
        · rw [hrv]
          simp only [addShare, List.mem_append, List.mem_singleton]
          push_neg
          constructor
          · exact hinv (user, getList inv user) howner _ hvps
          · exact fun h2 => hne h2.symm
      · exact hinv p hq.1 r hr

/-- C5 (amended, witness). -/
theorem c5_amended_witness :
    OwnerNotShared (slash_share_user [("1", [shareRecordExample])] "1" "2" 1).inv :=
  c5_amended [("1", [shareRecordExample])] "1" "2" 1 (by decide) (by decide)

/-- C6: the claim says re-enabling the monitor resumes sampling within one
`CHECK_INTERVAL`.  In the code, when the loop's `while cpu_monitor_active`
check observes the cleared flag the thread exits, and `/cpu_monitor enable`
only flips the flag back: after disable, one observed interval, enable, and
three further intervals, no sample is ever taken again even though the flag is
set — the monitor before the disable sampled each interval. -/
theorem c6_enable_no_resume :
    (monitor_sys_run monitorInit [MonitorEvent.interval]).samplesTaken = 1 ∧
    monitorTraceExample.samplesTaken = 0 ∧ monitorTraceExample.threadAlive = false ∧
    monitorTraceExample.cpu_monitor_active = true := by
  decide

/-- C7 (counterexample): a per-tenant mapping whose single key is
`container_name` with a record as value is a mapping-from-keys-to-records, yet
the loader classifies it as a single record object (shape (a)), yielding the
wrapped dict instead of its values: the three-way agreement claimed for shape
(b) fails at this key. -/
theorem c7_counterexample :
    isRecordJ recordJExample = true ∧
    normalizeTenant (JVal.obj [("container_name", recordJExample)]) =
      some [JVal.obj [("container_name", recordJExample)]] ∧
    normalizeTenant (JVal.obj [("container_name", recordJExample)]) ≠
      some [recordJExample] := by
  refine ⟨rfl, rfl, ?_⟩
  intro h
  simp [normalizeTenant, hasKeyJ, recordJExample] at h

/-- C7 (amended): the loader normalizes (a) a dict carrying `container_name`
to the one-element list of itself, (b) any other dict to the list of its
values — so a mapping from keys to records agrees with the other encodings
provided no key is literally `container_name` — and (c) keeps a list as is;
in particular a record reaches the same one-record list under all three
encodings, and any other shape is dropped while loading continues with the
remaining tenants. -/
theorem c7_amended :
    (∀ kvs : List (String × JVal), hasKeyJ kvs "container_name" = true →
      normalizeTenant (JVal.obj kvs) = some [JVal.obj kvs]) ∧
    (∀ kvs : List (String × JVal), hasKeyJ kvs "container_name" = false →
      normalizeTenant (JVal.obj kvs) = some (kvs.map (fun p => p.2))) ∧
    (∀ xs : List JVal, normalizeTenant (JVal.arr xs) = some xs) ∧
    (∀ (r : JVal) (k : String), isRecordJ r = true → k ≠ "container_name" →
      normalizeTenant r = some [r] ∧
      normalizeTenant (JVal.obj [(k, r)]) = some [r] ∧
      normalizeTenant (JVal.arr [r]) = some [r]) ∧
    (∀ s, normalizeTenant (JVal.str s) = none) ∧
    (∀ i, normalizeTenant (JVal.num i) = none) ∧
    (∀ (uid : String) (v : JVal) (rest : List (String × JVal)),
      normalizeTenant v = none →
      load_vps_data ((uid, v) :: rest) = load_vps_data rest) := by
  refine ⟨?_, ?_, ?_, ?_, fun s => rfl, fun i => rfl, ?_⟩
  · intro kvs h
    simp [normalizeTenant, h]
  · intro kvs h
    simp [normalizeTenant, h]
  · intro xs
    rfl
  · intro r k hr hk
    cases r with
    | str s => simp [isRecordJ] at hr
    | num i => simp [isRecordJ] at hr
    | arr xs => simp [isRecordJ] at hr
    | obj kvs =>
      have h1 : hasKeyJ kvs "container_name" = true := hr
      refine ⟨by simp [normalizeTenant, h1], ?_, rfl⟩
      have h2 : hasKeyJ [(k, JVal.obj kvs)] "container_name" = false := by
        simp [hasKeyJ, hk]
      simp [normalizeTenant, h2]
  · intro uid v rest h
    simp [load_vps_data, List.filterMap_cons, h]

/-- C7 (amended, witness). -/
theorem c7_amended_witness :
    normalizeTenant (JVal.obj [("container_name", JVal.str "vps-1-1")]) =
      some [JVal.obj [("container_name", JVal.str "vps-1-1")]] ∧
    normalizeTenant (JVal.obj [("0", JVal.obj [("container_name", JVal.str "vps-1-1")])]) =
      some [JVal.obj [("container_name", JVal.str "vps-1-1")]] ∧
    normalizeTenant (JVal.arr [JVal.obj [("container_name", JVal.str "vps-1-1")]]) =
      some [JVal.obj [("container_name", JVal.str "vps-1-1")]] :=
  c7_amended.2.2.2.1 (JVal.obj [("container_name", JVal.str "vps-1-1")]) "0"
    rfl (by decide)

/-- C8: `execute_incus` classifies failures as specified: a timeout raises an
error embedding the elapsed bound and never yields a success value; a non-zero
exit raises an error whose message embeds the captured stderr (or the literal
`Unknown error (empty stderr)` marker when stderr is blank), the literal
command string, and the captured stdout — and that message is never empty. -/
theorem c8_runner_errors :
    ∀ (command : String) (timeout : Nat) (code : Int) (so se : String),
    (∀ v, execute_incus command timeout ProcResult.timedOut ≠ .ok v) ∧
    execute_incus command timeout ProcResult.timedOut =
      .error ("Command timed out after " ++ pyStrNat timeout ++
        " seconds - container may be unresponsive. Try manual stop or increase timeout.") ∧
    (code ≠ 0 →
      ∃ pre, execute_incus command timeout (ProcResult.completed code so se) =
          .error (pre ++ ". Command: " ++ command ++ ". STDOUT: " ++ pyStrip so) ∧
        pre ≠ "" ∧
        (pyStrip se ≠ "" → pre = pyStrip se) ∧
        (pyStrip se = "" → pre = "Unknown error (empty stderr)") ∧
        pre ++ ". Command: " ++ command ++ ". STDOUT: " ++ pyStrip so ≠ "") := by
  intro command timeout code so se
  refine ⟨?_, rfl, ?_⟩
  · intro v h
    simp [execute_incus] at h
  · intro hcode
    refine ⟨if pyStrip se = "" then "Unknown error (empty stderr)" else pyStrip se,
      ?_, ?_, ?_, ?_, ?_⟩
    · simp [execute_incus, hcode]
    · by_cases hse : pyStrip se = ""
      · rw [if_pos hse]
        decide
      · rw [if_neg hse]
        exact hse
    · intro hse
      rw [if_neg hse]
    · intro hse
      rw [if_pos hse]
    · apply string_append_ne_empty_left
      apply string_append_ne_empty_right
      decide

/-- C8 (witness). -/
theorem c8_runner_errors_witness :
    (∀ v, execute_incus "incus stop c1 --force" 120 ProcResult.timedOut ≠ .ok v) ∧
    (∃ pre, execute_incus "incus stop c1 --force" 120 (ProcResult.completed 1 "" "") =
        .error (pre ++ ". Command: " ++ "incus stop c1 --force" ++ ". STDOUT: " ++
          pyStrip "") ∧
      pre ≠ "" ∧
      (pyStrip "" ≠ "" → pre = pyStrip "") ∧
      (pyStrip "" = "" → pre = "Unknown error (empty stderr)") ∧
      pre ++ ". Command: " ++ "incus stop c1 --force" ++ ". STDOUT: " ++ pyStrip "" ≠ "") := by
  have h := c8_runner_errors "incus stop c1 --force" 120 1 "" ""
  exact ⟨h.1, h.2.2 (by decide)⟩

/-- C9: non-positive ram or cpu makes `slash_create` fail with the validation
rejection before anything else: the inventory is returned exactly as given,
the `incus launch` call (the operation's first runtime invocation) is never
reached, and nothing is persisted. -/
theorem c9_validation :
    ∀ (inv : Inventory) (uid : String) (ram cpu : Int) (env : CreateEnv),
    ram ≤ 0 ∨ cpu ≤ 0 →
    slash_create inv uid ram cpu env =
      { inv := inv, launchAttempted := false, saved := false,
        validationError := true, created := false } :=
  fun inv uid ram cpu env hval => slash_create_eq_validation inv uid ram cpu env hval

/-- C9 (witness). -/
theorem c9_validation_witness :
    slash_create [] "1" 0 2 { launchOk := true, now := "t", dynIpv4 := "a", dynIpv6 := "b" } =
      { inv := [], launchAttempted := false, saved := false,
        validationError := true, created := false } :=
  c9_validation [] "1" 0 2
    { launchOk := true, now := "t", dynIpv4 := "a", dynIpv6 := "b" }
    (Or.inl (by decide))

/-- C10: a non-negative credit balance stays non-negative under every credit
operation: `slash_admin_credits` rejects non-positive amounts (unchanged
balance), `slash_buywc` rejects a purchase whose cost exceeds the balance
before any deduction, `slash_admin_remove_credits "all"` zeroes the balance
exactly, numeric removal clamps to the balance — and any sequence of such
operations keeps the balance non-negative. -/
theorem c10_credit_nonneg :
    ∀ (b amount : Int) (arg plan processor : String) (ops : List CreditOp),
    0 ≤ b →
    0 ≤ slash_admin_credits b amount ∧
    (amount ≤ 0 → slash_admin_credits b amount = b) ∧
    0 ≤ slash_admin_remove_credits b arg ∧
    slash_admin_remove_credits b "all" = 0 ∧
    0 ≤ slash_buywc_credits b plan processor ∧
    (∀ row cost, lookupStr prices plan = some row →
      lookupStr row processor = some cost → b < cost →
      slash_buywc_credits b plan processor = b) ∧
    0 ≤ List.foldl applyCreditOp b ops := by
  intro b amount arg plan processor ops hb
  refine ⟨credits_add_nonneg b amount hb, ?_, credits_remove_nonneg b arg hb, ?_,
    credits_buy_nonneg b plan processor hb, ?_, ?_⟩
  · intro h
    unfold slash_admin_credits
    rw [if_pos h]
  · unfold slash_admin_remove_credits
    rw [if_pos (by decide : pyLower "all" = "all")]
  · intro row cost hrow hcost hlt
    unfold slash_buywc_credits
    rw [hrow]
    dsimp only
    by_cases hproc : processor = "Intel" ∨ processor = "AMD"
    · rw [if_pos hproc, hcost]
      dsimp only
      rw [if_pos hlt]
    · rw [if_neg hproc]
  · induction ops generalizing b with
    | nil => simpa using hb
    | cons op rest ih =>
      rw [List.foldl_cons]
      apply ih
      cases op with
      | adminAdd a => exact credits_add_nonneg b a hb
      | adminRemove s => exact credits_remove_nonneg b s hb
      | buy p pr => exact credits_buy_nonneg b p pr hb

/-- C10 (witness). -/
theorem c10_credit_nonneg_witness :
    0 ≤ slash_admin_credits 5 3 ∧
    0 ≤ slash_admin_remove_credits 5 "all" ∧
    0 ≤ slash_buywc_credits 5 "Starter" "Intel" := by
  have h := c10_credit_nonneg 5 3 "all" "Starter" "Intel" [] (by decide)
  exact ⟨h.1, h.2.2.1, h.2.2.2.2.1⟩
